import Mathlib

/-!
Shallow embedding of the booking/session subsystem of the trainerproj
repository (Express routes over Mongoose models).

Conventions of the embedding:
- JS strings stay `String`; enum-tagged fields are `String` values checked
  against the schema enum lists, exactly as Mongoose validation does.
- JS numbers that take part in price arithmetic are modelled as `ℚ`
  (division by 60 is exact there; the code never truncates).
- Dates are modelled by their millisecond epoch value as `Int`
  (JS Date comparisons compare the underlying millisecond values).
- A Mongoose `document.save()` is a function from the document to
  `Except String document`: Mongoose runs schema validation first, then
  the user pre-save hooks in registration order; a hook calling
  `next(error)` aborts the save with that error, which the route catch
  block turns into a 500 response.
- `Model.findByIdAndUpdate` performs a direct store update and does not
  run the save hooks; it is modelled as a direct update of the session
  list that stands for the session collection.
-/

namespace Trainerproj

/-- Enum of BookingSchema.status (models/Booking.js lines 70 to 74). -/
def bookingStatuses : List String := ["pending", "confirmed", "cancelled", "completed"]

/-- Enum of BookingSchema.paymentStatus (models/Booking.js lines 62 to 66). -/
def paymentStatuses : List String := ["pending", "paid", "failed", "refunded"]

/-- Enum of SessionSchema.status (models/Session.js lines 33 to 37). -/
def sessionStatuses : List String := ["scheduled", "in-progress", "completed", "cancelled", "no-show"]

/-- Enum of the per-session type field (in-person or virtual). -/
def sessionTypes : List String := ["in-person", "virtual"]

/-- Enum of BookingSchema.sessionType (single, package, subscription). -/
def bookingSessionTypes : List String := ["single", "package", "subscription"]

/-- Enum of BookingSchema.paymentMethod. -/
def paymentMethods : List String := ["credit_card", "paypal", "stripe", "cash"]

/-- One service of a trainer (models/Trainer.js lines 33 to 44). -/
structure Service where
  id : String
  name : String
  price : ℚ
deriving DecidableEq

/-- The part of a Trainer document the booking and session routes read:
its user id, the isActive flag, the service catalog, and the set of
week days d for which availability[d].available is true (lowercase day
names, models/Trainer.js lines 45 to 80). -/
structure Trainer where
  userId : String
  isActive : Bool
  services : List Service
  availableDays : List String
deriving DecidableEq

/-- One entry of a statusHistory array (both models declare the same
shape: status, changedBy, timestamp, notes). -/
structure StatusEntry where
  status : String
  changedBy : String
  timestamp : Int
  notes : Option String
deriving DecidableEq

/-- One entry of BookingSchema.paymentHistory. -/
structure PaymentEntry where
  status : String
  transactionId : Option String
  paymentMethod : Option String
  updatedBy : String
  timestamp : Int
deriving DecidableEq

/-- One session item of a booking creation request body
(fields read by the POST route of routes/bookings.js). -/
structure SessionInput where
  type : String
  sessionType : String
  duration : ℚ
  date : Int
deriving DecidableEq

/-- One line item of BookingSchema.sessions (models/Booking.js lines
19 to 51): the request item fields plus the computed price, the matched
service id and, after session creation, the session id. -/
structure LineItem where
  type : String
  sessionType : String
  duration : ℚ
  date : Int
  price : ℚ
  serviceId : Option String
  sessionId : Option String
deriving DecidableEq

/-- A Booking document (models/Booking.js). -/
structure Booking where
  id : String
  userId : String
  trainerId : String
  sessionType : String
  sessions : List LineItem
  totalPrice : ℚ
  paymentMethod : String
  paymentStatus : String := "pending"
  transactionId : Option String := none
  notes : Option String := none
  specialRequests : Option String := none
  status : String := "pending"
  statusHistory : List StatusEntry := []
  paymentHistory : List PaymentEntry := []
deriving DecidableEq

/-- A Session document (models/Session.js). The price subdocument has a
required amount, so it is modelled as an optional rational that schema
validation requires to be present. -/
structure Session where
  id : String
  userId : String
  trainerId : String
  type : String
  duration : ℚ
  date : Int
  status : String := "scheduled"
  notes : Option String := none
  priceAmount : Option ℚ := none
  statusHistory : List StatusEntry := []
deriving DecidableEq

/-- The authenticated request user (req.user set by middleware/auth.js). -/
structure Actor where
  id : String
  role : String
deriving DecidableEq

/-- Mongoose schema validation of a Booking document: enum checks on the
status fields and on history entries, the sessionType and duration
bounds of line items, and the nonnegative totalPrice
(models/Booking.js schema declarations). -/
def Booking.validate (b : Booking) : Prop :=
  b.sessionType ∈ bookingSessionTypes ∧
  b.paymentMethod ∈ paymentMethods ∧
  b.status ∈ bookingStatuses ∧
  b.paymentStatus ∈ paymentStatuses ∧
  (∀ it ∈ b.sessions, it.sessionType ∈ sessionTypes ∧ 15 ≤ it.duration ∧ it.duration ≤ 480) ∧
  0 ≤ b.totalPrice ∧
  (∀ e ∈ b.statusHistory, e.status ∈ bookingStatuses) ∧
  (∀ e ∈ b.paymentHistory, e.status ∈ paymentStatuses)

instance (b : Booking) : Decidable b.validate := by
  unfold Booking.validate; infer_instance

/-- Pre-save hook of models/Booking.js lines 214 to 225: on the first
save of a new document with an empty statusHistory, push the creation
entry carrying the current status, attributed to the booking user. -/
def Booking.initStatusHistory (now : Int) (isNew : Bool) (b : Booking) : Booking :=
  if isNew ∧ b.statusHistory = [] then
    { b with statusHistory :=
        b.statusHistory ++ [⟨b.status, b.userId, now, some "Booking created"⟩] }
  else b

/-- Pre-save hook of models/Booking.js lines 227 to 238: the analogous
initial paymentHistory entry. -/
def Booking.initPaymentHistory (now : Int) (isNew : Bool) (b : Booking) : Booking :=
  if isNew ∧ b.paymentHistory = [] then
    { b with paymentHistory :=
        b.paymentHistory ++ [⟨b.paymentStatus, none, some b.paymentMethod, b.userId, now⟩] }
  else b

/-- The two history init hooks in registration order. -/
def Booking.runHooks (now : Int) (isNew : Bool) (b : Booking) : Booking :=
  Booking.initPaymentHistory now isNew (Booking.initStatusHistory now isNew b)

/-- Mongoose save of a Booking: validation, then the three pre-save
hooks in registration order; the third hook (models/Booking.js lines
240 to 249) rejects any line item dated in the past on every save. -/
def Booking.save (now : Int) (isNew : Bool) (b : Booking) : Except String Booking :=
  if ¬ b.validate then .error "ValidationError"
  else if ∃ it ∈ (Booking.runHooks now isNew b).sessions, it.date < now then
    .error "Session dates cannot be in the past"
  else .ok (Booking.runHooks now isNew b)

/-- Mongoose schema validation of a Session document
(models/Session.js schema declarations). -/
def Session.validate (s : Session) : Prop :=
  s.type ∈ sessionTypes ∧
  15 ≤ s.duration ∧ s.duration ≤ 480 ∧
  s.status ∈ sessionStatuses ∧
  s.priceAmount.isSome ∧
  (∀ e ∈ s.statusHistory, e.status ∈ sessionStatuses)

instance (s : Session) : Decidable s.validate := by
  unfold Session.validate; infer_instance

/-- Pre-save hook of models/Session.js lines 201 to 212: initial
statusHistory entry on the first save. -/
def Session.initHistory (now : Int) (isNew : Bool) (s : Session) : Session :=
  if isNew ∧ s.statusHistory = [] then
    { s with statusHistory :=
        s.statusHistory ++ [⟨s.status, s.userId, now, some "Session created"⟩] }
  else s

/-- Mongoose save of a Session: validation, the history init hook, then
the date hook of models/Session.js lines 214 to 221, which rejects a
past date on every save. -/
def Session.save (now : Int) (isNew : Bool) (s : Session) : Except String Session :=
  if ¬ s.validate then .error "ValidationError"
  else if (s.initHistory now isNew).date < now then
    .error "Session date cannot be in the past"
  else .ok (s.initHistory now isNew)

/-- Exact service matching of routes/bookings.js line 154:
trainer.services.find by strict name equality. -/
def Trainer.findService (t : Trainer) (name : String) : Option Service :=
  t.services.find? (fun s => s.name == name)

/-- The pricing loop of the booking POST route (routes/bookings.js lines
148 to 169): for each requested session find the service whose name
equals the session type field, price it at service price over 60 times
the duration, and accumulate the total; a missing service aborts with a
400 response, modelled by none. Accumulation order does not matter over
the exact rationals, so the left-to-right running total of the loop is
written as the recursion below. -/
def priceSessions (t : Trainer) : List SessionInput → Option (List LineItem × ℚ)
  | [] => some ([], 0)
  | r :: rs =>
    match t.findService r.type with
    | none => none
    | some svc =>
      match priceSessions t rs with
      | none => none
      | some (items, rest) =>
        some ({ type := r.type, sessionType := r.sessionType, duration := r.duration,
                date := r.date, price := svc.price / 60 * r.duration,
                serviceId := some svc.id, sessionId := none } :: items,
              svc.price / 60 * r.duration + rest)

/-- HTTP outcome of a route handler: a success status code with a value,
or an error status code with the response message. -/
inductive HttpOutcome (α : Type) where
  | success (code : Nat) (val : α)
  | failure (code : Nat) (message : String)
deriving DecidableEq

/-- Request body of the booking POST route. -/
structure BookingRequest where
  trainerId : String
  sessionType : String
  sessions : List SessionInput
  paymentMethod : String
  notes : Option String := none
  specialRequests : Option String := none
deriving DecidableEq

/-- Express-validator checks of the booking POST route
(routes/bookings.js lines 110 to 117). -/
def BookingRequest.valid (req : BookingRequest) : Prop :=
  req.sessionType ∈ bookingSessionTypes ∧
  req.sessions ≠ [] ∧
  (∀ s ∈ req.sessions, s.type ∈ sessionTypes) ∧
  req.paymentMethod ∈ paymentMethods

instance (req : BookingRequest) : Decidable req.valid := by
  unfold BookingRequest.valid; infer_instance

/-- The Booking document the POST route constructs from the priced line
items (routes/bookings.js lines 171 to 182). -/
def newBooking (actor : Actor) (req : BookingRequest) (items : List LineItem)
    (total : ℚ) : Booking :=
  { id := "new", userId := actor.id, trainerId := req.trainerId,
    sessionType := req.sessionType, sessions := items, totalPrice := total,
    paymentMethod := req.paymentMethod, notes := req.notes,
    specialRequests := req.specialRequests, status := "pending" }

/-- The booking POST route of routes/bookings.js (lines 110 to 233),
modelled up to and including the first save of the new booking, which
is the point where the priced booking is first persisted. The trainer
argument is the result of the Trainer.findOne lookup. -/
def createBooking (now : Int) (actor : Actor) (trainer? : Option Trainer)
    (req : BookingRequest) : Except (Nat × String) Booking :=
  if ¬ req.valid then .error (400, "Validation failed")
  else if actor.role == "trainer" then .error (400, "Trainers cannot create bookings")
  else
    match trainer? with
    | none => .error (404, "Trainer not found or inactive")
    | some t =>
      if ¬ t.isActive then .error (404, "Trainer not found or inactive")
      else
        match priceSessions t req.sessions with
        | none => .error (400, "Service type not found for this trainer")
        | some (items, total) =>
          match (newBooking actor req items total).save now true with
          | .error _ => .error (500, "Server error while creating booking")
          | .ok b1 => .ok b1

/-- JS conditional assignment if (v) target = v: keep the old value
when the request field is absent. -/
def jsOr {α : Type} (v old : Option α) : Option α :=
  match v with
  | some x => some x
  | none => old

/-- The statusHistory entry pushed on a session by both cascade
cancellations (routes/bookings.js lines 290 to 297 and 430 to 437). -/
def cascadeEntry (aid : String) (now : Int) : StatusEntry :=
  ⟨"cancelled", aid, now, some "Cancelled due to booking cancellation"⟩

/-- Effect of one Session.findByIdAndUpdate cascade call on one stored
session: if the id matches, set status to cancelled and push the
cascade entry; the update query bypasses the save hooks. -/
def cancelById (aid : String) (now : Int) (sid : String) (s : Session) : Session :=
  if s.id == sid then
    { s with status := "cancelled",
             statusHistory := s.statusHistory ++ [cascadeEntry aid now] }
  else s

/-- The cascade loop over booking line items (routes/bookings.js lines
284 to 301 and 425 to 440): for each line item carrying a sessionId,
update the matching stored session. -/
def cancelLinkedSessions (aid : String) (now : Int) :
    List LineItem → List Session → List Session
  | [], db => db
  | it :: rest, db =>
    match it.sessionId with
    | some sid => cancelLinkedSessions aid now rest (db.map (cancelById aid now sid))
    | none => cancelLinkedSessions aid now rest db

/-- The contribution of the whole cascade loop to a single stored
session: the per-item updates applied in order. -/
def cancelOne (aid : String) (now : Int) : List LineItem → Session → Session
  | [], s => s
  | it :: rest, s =>
    match it.sessionId with
    | some sid => cancelOne aid now rest (cancelById aid now sid s)
    | none => cancelOne aid now rest s

/-- The booking document as mutated by the status route before its
save: new status, conditionally replaced notes, and the pushed
statusHistory entry. -/
def bookingWithStatus (now : Int) (aid : String) (st : String)
    (n : Option String) (b : Booking) : Booking :=
  { b with status := st, notes := jsOr n b.notes,
           statusHistory := b.statusHistory ++ [⟨st, aid, now, n⟩] }

/-- The booking document as mutated by the payment route before its
save. -/
def bookingWithPayment (now : Int) (aid : String) (ps : String)
    (tid pm : Option String) (b : Booking) : Booking :=
  { b with paymentStatus := ps,
           transactionId := jsOr tid b.transactionId,
           paymentMethod := pm.getD b.paymentMethod,
           paymentHistory := b.paymentHistory ++ [⟨ps, tid, pm, aid, now⟩] }

/-- The session document as mutated by the session status route before
its save. -/
def sessionWithStatus (now : Int) (aid : String) (st : String)
    (n : Option String) (s : Session) : Session :=
  { s with status := st, notes := jsOr n s.notes,
           statusHistory := s.statusHistory ++ [⟨st, aid, now, n⟩] }

/-- The booking document as mutated by the DELETE route before its
save. -/
def cancelledBooking (now : Int) (aid : String) (b : Booking) : Booking :=
  { b with status := "cancelled",
           statusHistory := b.statusHistory ++
             [⟨"cancelled", aid, now, some "Booking cancelled by user"⟩] }

/-- The booking status PUT route of routes/bookings.js lines 238 to 323.
Returns the HTTP outcome, the persisted state of the booking, and the
persisted session store. The cascade to linked sessions runs before the
booking save, so a failing save still leaves the sessions updated. -/
def updateBookingStatus (now : Int) (actor : Actor) (reqStatus : String)
    (reqNotes : Option String) (booking? : Option Booking) (db : List Session) :
    HttpOutcome Booking × Option Booking × List Session :=
  if reqStatus ∉ bookingStatuses then (.failure 400 "Validation failed", booking?, db)
  else
    match booking? with
    | none => (.failure 404 "Booking not found", none, db)
    | some b =>
      if b.userId ≠ actor.id ∧ b.trainerId ≠ actor.id then
        (.failure 403 "Access denied", some b, db)
      else
        match (bookingWithStatus now actor.id reqStatus reqNotes b).save now false with
        | .error _ =>
          (.failure 500 "Server error while updating booking status", some b,
           if reqStatus == "cancelled"
           then cancelLinkedSessions actor.id now b.sessions db else db)
        | .ok b3 =>
          (.success 200 b3, some b3,
           if reqStatus == "cancelled"
           then cancelLinkedSessions actor.id now b.sessions db else db)

/-- The payment status PUT route of routes/bookings.js lines 328 to 393. -/
def updateBookingPayment (now : Int) (actor : Actor) (reqPaymentStatus : String)
    (reqTransactionId reqPaymentMethod : Option String) (booking? : Option Booking) :
    HttpOutcome Booking × Option Booking :=
  if reqPaymentStatus ∉ paymentStatuses then (.failure 400 "Validation failed", booking?)
  else
    match booking? with
    | none => (.failure 404 "Booking not found", none)
    | some b =>
      if b.userId ≠ actor.id ∧ b.trainerId ≠ actor.id then
        (.failure 403 "Access denied", some b)
      else
        match (bookingWithPayment now actor.id reqPaymentStatus reqTransactionId
                 reqPaymentMethod b).save now false with
        | .error _ => (.failure 500 "Server error while updating payment status", some b)
        | .ok b3 => (.success 200 b3, some b3)

/-- The booking DELETE route of routes/bookings.js lines 398 to 465:
cancellation is allowed only from pending or confirmed; the linked
sessions are cancelled before the booking itself is saved. -/
def deleteBooking (now : Int) (actor : Actor) (booking? : Option Booking)
    (db : List Session) : HttpOutcome Unit × Option Booking × List Session :=
  match booking? with
  | none => (.failure 404 "Booking not found", none, db)
  | some b =>
    if b.userId ≠ actor.id ∧ b.trainerId ≠ actor.id then
      (.failure 403 "Access denied", some b, db)
    else if b.status ∉ ["pending", "confirmed"] then
      (.failure 400 "Cannot cancel booking in current status", some b, db)
    else
      match (cancelledBooking now actor.id b).save now false with
      | .error _ =>
        (.failure 500 "Server error while cancelling booking", some b,
         cancelLinkedSessions actor.id now b.sessions db)
      | .ok b2 =>
        (.success 200 (), some b2, cancelLinkedSessions actor.id now b.sessions db)

/-- The session status PUT route of the sessions router
(unnamed/part_002 lines 194 to 262). -/
def updateSessionStatus (now : Int) (actor : Actor) (reqStatus : String)
    (reqNotes : Option String) (session? : Option Session) :
    HttpOutcome Session × Option Session :=
  if reqStatus ∉ sessionStatuses then (.failure 400 "Validation failed", session?)
  else
    match session? with
    | none => (.failure 404 "Session not found", none)
    | some s =>
      if s.userId ≠ actor.id ∧ s.trainerId ≠ actor.id then
        (.failure 403 "Access denied", some s)
      else
        match (sessionWithStatus now actor.id reqStatus reqNotes s).save now false with
        | .error _ => (.failure 500 "Server error while updating session status", some s)
        | .ok s3 => (.success 200 s3, some s3)

/-- English weekday names indexed by the JS getDay convention,
Sunday first. -/
def weekdayNames : List String :=
  ["Sunday", "Monday", "Tuesday", "Wednesday", "Thursday", "Friday", "Saturday"]

/-- Day-of-week index of an epoch millisecond value; the epoch day
(1970-01-01) was a Thursday, index 4. -/
def weekdayIndex (dateMs : Int) : Nat :=
  (((dateMs / 86400000) + 4) % 7).toNat

/-- Weekday text for a valid ECMA-402 weekday option value. -/
def formatWeekday (dateMs : Int) (opt : String) : String :=
  let name := weekdayNames.getD (weekdayIndex dateMs) "Sunday"
  if opt = "short" then name.take 3
  else if opt = "narrow" then name.take 1
  else name

/-- Date.prototype.toLocaleDateString restricted to the weekday option,
modelled from ECMA-402: GetOption for weekday admits exactly the values
narrow, short and long, and throws a RangeError for any other value.
The sessions router passes the value lowercase, which is not admitted,
so the call throws; the route catch block turns the throw into a 500
response. -/
def toLocaleWeekday (dateMs : Int) (weekdayOpt : String) : Except String String :=
  if weekdayOpt = "narrow" ∨ weekdayOpt = "short" ∨ weekdayOpt = "long" then
    .ok (formatWeekday dateMs weekdayOpt)
  else .error "RangeError: invalid value for option weekday"

/-- Request body of the session POST route (unnamed/part_002). -/
structure SessionRequest where
  trainerId : String
  type : String
  duration : ℚ
  date : Int
  notes : Option String := none
deriving DecidableEq

/-- The time-conflict predicate of the session POST route
(unnamed/part_002 lines 144 to 159): an existing session of the same
trainer whose date lies within duration minutes on either side of the
requested date and whose status is scheduled or in-progress. -/
def hasTimeConflict (db : List Session) (trainerId : String) (dateMs : Int)
    (duration : ℚ) : Prop :=
  ∃ s ∈ db, s.trainerId = trainerId ∧
    (dateMs : ℚ) - duration * 60000 ≤ (s.date : ℚ) ∧
    (s.date : ℚ) ≤ (dateMs : ℚ) + duration * 60000 ∧
    (s.status = "scheduled" ∨ s.status = "in-progress")

instance (db : List Session) (trainerId : String) (dateMs : Int) (duration : ℚ) :
    Decidable (hasTimeConflict db trainerId dateMs duration) := by
  unfold hasTimeConflict; infer_instance

/-- The Session document the session POST route constructs; the route
does not set a price, although the schema requires one
(unnamed/part_002 lines 161 to 172). -/
def newSession (aid : String) (req : SessionRequest) : Session :=
  { id := "new", userId := aid, trainerId := req.trainerId,
    type := req.type, duration := req.duration, date := req.date,
    notes := req.notes, status := "scheduled" }

/-- The session POST route of unnamed/part_002 lines 97 to 192: request
validation, the trainer-role and trainer-lookup checks, the
availability check built on the weekday formatting call, the time
conflict check, and the save of the new session (which the route
constructs without a price). Returns the HTTP outcome and the session
store. -/
def createSession (now : Int) (actor : Actor) (trainer? : Option Trainer)
    (db : List Session) (req : SessionRequest) :
    HttpOutcome Session × List Session :=
  if req.type ∉ sessionTypes then (.failure 400 "Validation failed", db)
  else if actor.role == "trainer" then (.failure 400 "Trainers cannot create sessions", db)
  else
    match trainer? with
    | none => (.failure 404 "Trainer not found or inactive", db)
    | some t =>
      if ¬ t.isActive then (.failure 404 "Trainer not found or inactive", db)
      else
        match toLocaleWeekday req.date "lowercase" with
        | .error _ => (.failure 500 "Server error while creating session", db)
        | .ok day =>
          if day ∉ t.availableDays then
            (.failure 400 "Trainer is not available on this day", db)
          else if hasTimeConflict db req.trainerId req.date req.duration then
            (.failure 400 "Trainer has a conflicting session at this time", db)
          else
            match (newSession actor.id req).save now true with
            | .error _ => (.failure 500 "Server error while creating session", db)
            | .ok s1 => (.success 201 s1, db ++ [s1])

/-- JS String.prototype.includes: the needle occurs contiguously in the
haystack. -/
def strIncludes (hay needle : String) : Bool :=
  decide (List.IsInfix needle.data hay.data)

/-- JS String.prototype.toLowerCase, character by character (the simple
case mapping; the service names involved are ASCII). -/
def strToLower (s : String) : String := ⟨s.data.map Char.toLower⟩

/-- The flexible service matching of the start.bat booking route (lines
1476 to 1480): case-insensitive equality, or substring containment in
either direction. -/
def flexMatches (svcName reqName : String) : Bool :=
  strToLower svcName == strToLower reqName ||
  strIncludes (strToLower svcName) (strToLower reqName) ||
  strIncludes (strToLower reqName) (strToLower svcName)

/-- Service selection of the start.bat booking route (lines 1474 to
1492): find a flexibly matching service, and otherwise fall back to the
first service of the trainer; none is returned only when the trainer
has no services, which the route turns into a 400 response. -/
def matchServiceFlex (t : Trainer) (name : String) : Option Service :=
  match t.services.find? (fun s => flexMatches s.name name) with
  | some s => some s
  | none => t.services.head?

/-- Price of one requested session item under the start.bat matching:
the matched service hourly price over 60 times the duration (line
1494). -/
def flexItemPrice (t : Trainer) (item : SessionInput) : Option ℚ :=
  (matchServiceFlex t item.type).map (fun svc => svc.price / 60 * item.duration)

/-- The pricing loop of the start.bat booking route: item prices and the
running total under flexible matching with first-service fallback. -/
def priceSessionsFlex (t : Trainer) : List SessionInput → Option (List ℚ × ℚ)
  | [] => some ([], 0)
  | r :: rs =>
    match matchServiceFlex t r.type with
    | none => none
    | some svc =>
      match priceSessionsFlex t rs with
      | none => none
      | some (prices, rest) =>
        some (svc.price / 60 * r.duration :: prices, svc.price / 60 * r.duration + rest)

/-- The session ids carried by the line items of a booking. -/
def linkedIds (b : Booking) : List String :=
  b.sessions.filterMap LineItem.sessionId

@[simp] theorem initStatusHistory_sessions (now : Int) (isNew : Bool) (b : Booking) :
    (Booking.initStatusHistory now isNew b).sessions = b.sessions := by
  unfold Booking.initStatusHistory; split <;> rfl

@[simp] theorem initStatusHistory_totalPrice (now : Int) (isNew : Bool) (b : Booking) :
    (Booking.initStatusHistory now isNew b).totalPrice = b.totalPrice := by
  unfold Booking.initStatusHistory; split <;> rfl

@[simp] theorem initStatusHistory_status (now : Int) (isNew : Bool) (b : Booking) :
    (Booking.initStatusHistory now isNew b).status = b.status := by
  unfold Booking.initStatusHistory; split <;> rfl

@[simp] theorem initStatusHistory_paymentStatus (now : Int) (isNew : Bool) (b : Booking) :
    (Booking.initStatusHistory now isNew b).paymentStatus = b.paymentStatus := by
  unfold Booking.initStatusHistory; split <;> rfl

@[simp] theorem initStatusHistory_paymentHistory (now : Int) (isNew : Bool) (b : Booking) :
    (Booking.initStatusHistory now isNew b).paymentHistory = b.paymentHistory := by
  unfold Booking.initStatusHistory; split <;> rfl

@[simp] theorem initPaymentHistory_sessions (now : Int) (isNew : Bool) (b : Booking) :
    (Booking.initPaymentHistory now isNew b).sessions = b.sessions := by
  unfold Booking.initPaymentHistory; split <;> rfl

@[simp] theorem initPaymentHistory_totalPrice (now : Int) (isNew : Bool) (b : Booking) :
    (Booking.initPaymentHistory now isNew b).totalPrice = b.totalPrice := by
  unfold Booking.initPaymentHistory; split <;> rfl

@[simp] theorem initPaymentHistory_status (now : Int) (isNew : Bool) (b : Booking) :
    (Booking.initPaymentHistory now isNew b).status = b.status := by
  unfold Booking.initPaymentHistory; split <;> rfl

@[simp] theorem initPaymentHistory_statusHistory (now : Int) (isNew : Bool) (b : Booking) :
    (Booking.initPaymentHistory now isNew b).statusHistory = b.statusHistory := by
  unfold Booking.initPaymentHistory; split <;> rfl

@[simp] theorem initPaymentHistory_paymentStatus (now : Int) (isNew : Bool) (b : Booking) :
    (Booking.initPaymentHistory now isNew b).paymentStatus = b.paymentStatus := by
  unfold Booking.initPaymentHistory; split <;> rfl

@[simp] theorem initStatusHistory_not_new (now : Int) (b : Booking) :
    Booking.initStatusHistory now false b = b := by
  unfold Booking.initStatusHistory; simp

@[simp] theorem initPaymentHistory_not_new (now : Int) (b : Booking) :
    Booking.initPaymentHistory now false b = b := by
  unfold Booking.initPaymentHistory; simp

@[simp] theorem sessionInitHistory_not_new (now : Int) (s : Session) :
    Session.initHistory now false s = s := by
  unfold Session.initHistory; simp

theorem initStatusHistory_tail (now : Int) (isNew : Bool) (b : Booking) :
    ∃ tl, (Booking.initStatusHistory now isNew b).statusHistory = b.statusHistory ++ tl := by
  unfold Booking.initStatusHistory; split
  · exact ⟨_, rfl⟩
  · exact ⟨[], by simp⟩

theorem initPaymentHistory_tail (now : Int) (isNew : Bool) (b : Booking) :
    ∃ tl, (Booking.initPaymentHistory now isNew b).paymentHistory = b.paymentHistory ++ tl := by
  unfold Booking.initPaymentHistory; split
  · exact ⟨_, rfl⟩
  · exact ⟨[], by simp⟩

theorem sessionInitHistory_tail (now : Int) (isNew : Bool) (s : Session) :
    ∃ tl, (Session.initHistory now isNew s).statusHistory = s.statusHistory ++ tl := by
  unfold Session.initHistory; split
  · exact ⟨_, rfl⟩
  · exact ⟨[], by simp⟩

@[simp] theorem sessionInitHistory_date (now : Int) (isNew : Bool) (s : Session) :
    (Session.initHistory now isNew s).date = s.date := by
  unfold Session.initHistory; split <;> rfl

@[simp] theorem sessionInitHistory_status (now : Int) (isNew : Bool) (s : Session) :
    (Session.initHistory now isNew s).status = s.status := by
  unfold Session.initHistory; split <;> rfl

@[simp] theorem runHooks_sessions (now : Int) (isNew : Bool) (b : Booking) :
    (Booking.runHooks now isNew b).sessions = b.sessions := by
  unfold Booking.runHooks; simp

@[simp] theorem runHooks_totalPrice (now : Int) (isNew : Bool) (b : Booking) :
    (Booking.runHooks now isNew b).totalPrice = b.totalPrice := by
  unfold Booking.runHooks; simp

@[simp] theorem runHooks_status (now : Int) (isNew : Bool) (b : Booking) :
    (Booking.runHooks now isNew b).status = b.status := by
  unfold Booking.runHooks; simp

@[simp] theorem runHooks_paymentStatus (now : Int) (isNew : Bool) (b : Booking) :
    (Booking.runHooks now isNew b).paymentStatus = b.paymentStatus := by
  unfold Booking.runHooks; simp

@[simp] theorem runHooks_not_new (now : Int) (b : Booking) :
    Booking.runHooks now false b = b := by
  unfold Booking.runHooks; simp

theorem runHooks_statusHistory_tail (now : Int) (isNew : Bool) (b : Booking) :
    ∃ tl, (Booking.runHooks now isNew b).statusHistory = b.statusHistory ++ tl := by
  unfold Booking.runHooks
  rw [initPaymentHistory_statusHistory]
  exact initStatusHistory_tail now isNew b

theorem runHooks_paymentHistory_tail (now : Int) (isNew : Bool) (b : Booking) :
    ∃ tl, (Booking.runHooks now isNew b).paymentHistory = b.paymentHistory ++ tl := by
  unfold Booking.runHooks
  obtain ⟨tl, htl⟩ := initPaymentHistory_tail now isNew (Booking.initStatusHistory now isNew b)
  rw [htl, initStatusHistory_paymentHistory]
  exact ⟨tl, rfl⟩

/-- Characterization of a successful Booking save: validation held, no
line item was dated in the past, and the result is the input with the
two init hooks applied. -/
theorem bookingSave_ok {now : Int} {isNew : Bool} {b b1 : Booking}
    (h : Booking.save now isNew b = .ok b1) :
    b.validate ∧ b1 = Booking.runHooks now isNew b ∧
    ∀ it ∈ b1.sessions, ¬ it.date < now := by
  unfold Booking.save at h
  split at h
  · cases h
  · next hval =>
    split at h
    · cases h
    · next hdates =>
      cases h
      push_neg at hval
      exact ⟨hval, rfl, by simpa using hdates⟩

/-- A successful Booking save exists exactly when validation and the
date hook pass, and then the result is the hook-adjusted document. -/
theorem bookingSave_eq_ok_iff (now : Int) (isNew : Bool) (b : Booking) :
    (∃ b1, Booking.save now isNew b = .ok b1) ↔
      (b.validate ∧ ∀ it ∈ b.sessions, ¬ it.date < now) := by
  constructor
  · rintro ⟨b1, h⟩
    obtain ⟨hv, hb1, hd⟩ := bookingSave_ok h
    refine ⟨hv, ?_⟩
    intro it hit
    exact hd it (by simp [hb1, hit])
  · rintro ⟨hv, hd⟩
    refine ⟨Booking.runHooks now isNew b, ?_⟩
    unfold Booking.save
    rw [if_neg (by simpa using hv), if_neg ?_]
    rw [runHooks_sessions]
    push_neg
    exact fun it hit => le_of_not_lt (hd it hit)

/-- Characterization of a successful Session save. -/
theorem sessionSave_ok {now : Int} {isNew : Bool} {s s1 : Session}
    (h : Session.save now isNew s = .ok s1) :
    s.validate ∧ s1 = s.initHistory now isNew ∧ ¬ s1.date < now := by
  unfold Session.save at h
  split at h
  · cases h
  · next hval =>
    split at h
    · cases h
    · next hdate =>
      cases h
      push_neg at hval
      exact ⟨hval, rfl, by simpa using hdate⟩

/-- A Session save with a past date always fails (the date hook runs on
every save), and when the document is schema-valid the error is the
message of the date hook. -/
theorem sessionSave_past_date {now : Int} {isNew : Bool} {s : Session}
    (hv : s.validate) (hd : s.date < now) :
    Session.save now isNew s = .error "Session date cannot be in the past" := by
  unfold Session.save
  rw [if_neg (by simpa using hv), if_pos (by simpa using hd)]

/-- Correctness of the pricing loop: the accumulated total is the sum of
the line item prices, and the line items correspond one to one to the
requested sessions, each priced at the matched service price over 60
times its duration. -/
theorem priceSessions_spec (t : Trainer) (reqs : List SessionInput)
    (items : List LineItem) (total : ℚ)
    (h : priceSessions t reqs = some (items, total)) :
    total = (items.map LineItem.price).sum ∧
    List.Forall₂ (fun (r : SessionInput) (it : LineItem) =>
      ∃ svc, t.findService r.type = some svc ∧
        it.price = svc.price / 60 * r.duration ∧
        it.duration = r.duration ∧ it.type = r.type ∧ it.date = r.date)
      reqs items := by
  induction reqs generalizing items total with
  | nil =>
    simp only [priceSessions, Option.some.injEq, Prod.mk.injEq] at h
    obtain ⟨h1, h2⟩ := h
    subst h1; subst h2
    exact ⟨by simp, List.Forall₂.nil⟩
  | cons r rs ih =>
    simp only [priceSessions] at h
    cases hfind : t.findService r.type with
    | none => rw [hfind] at h; cases h
    | some svc =>
      rw [hfind] at h
      cases hrec : priceSessions t rs with
      | none => rw [hrec] at h; cases h
      | some p =>
        obtain ⟨items0, rest⟩ := p
        rw [hrec] at h
        simp only [Option.some.injEq, Prod.mk.injEq] at h
        obtain ⟨h1, h2⟩ := h
        obtain ⟨hsum, hrel⟩ := ih items0 rest hrec
        subst h1; subst h2
        refine ⟨by simp [hsum], List.Forall₂.cons ⟨svc, hfind, rfl, rfl, rfl, rfl⟩ hrel⟩

/-- C1: for every booking-creation request whose sessions all match a
trainer service (that is, for every request the POST route accepts),
the totalPrice of the persisted booking equals the sum over its line
items of the matched service price over 60 times the session duration
in minutes, and each stored line item price equals its own such term. -/
theorem C1_booking_total_price (now : Int) (actor : Actor) (t : Trainer)
    (req : BookingRequest) (b : Booking)
    (h : createBooking now actor (some t) req = .ok b) :
    b.totalPrice = (b.sessions.map LineItem.price).sum ∧
    List.Forall₂ (fun (r : SessionInput) (it : LineItem) =>
      ∃ svc, t.findService r.type = some svc ∧
        it.price = svc.price / 60 * r.duration ∧
        it.duration = r.duration ∧ it.type = r.type ∧ it.date = r.date)
      req.sessions b.sessions := by
  unfold createBooking at h
  split at h
  · cases h
  split at h
  · cases h
  dsimp only at h
  split at h
  · cases h
  cases hp : priceSessions t req.sessions with
  | none => rw [hp] at h; cases h
  | some p =>
    obtain ⟨items, total⟩ := p
    rw [hp] at h
    dsimp only at h
    cases hsave : Booking.save now true (newBooking actor req items total) with
    | error e => rw [hsave] at h; cases h
    | ok b1 =>
      rw [hsave] at h
      cases h
      obtain ⟨hv, hb1, hd⟩ := bookingSave_ok hsave
      obtain ⟨hsum, hrel⟩ := priceSessions_spec t req.sessions items total hp
      have hsess : b.sessions = items := by rw [hb1]; simp [newBooking]
      have htot : b.totalPrice = total := by rw [hb1]; simp [newBooking]
      rw [hsess, htot]
      exact ⟨hsum, hrel⟩

/-- Evaluation lemma for the booking POST route: when the request is
valid, the actor is not a trainer, the trainer is active, pricing
produces the given items and total, and the save of the constructed
booking succeeds, the route returns that saved booking. -/
theorem createBooking_eval (now : Int) (actor : Actor) (t : Trainer)
    (req : BookingRequest) (items : List LineItem) (total : ℚ) (b1 : Booking)
    (hreq : req.valid) (hrole : (actor.role == "trainer") = false)
    (ht : t.isActive = true)
    (hps : priceSessions t req.sessions = some (items, total))
    (hs : Booking.save now true (newBooking actor req items total) = .ok b1) :
    createBooking now actor (some t) req = .ok b1 := by
  unfold createBooking
  rw [if_neg (not_not_intro hreq)]
  rw [if_neg (by simp [hrole])]
  dsimp only
  rw [if_neg (not_not_intro ht)]
  rw [hps]
  dsimp only
  rw [hs]

/-- Demo actor for the C1 witness. -/
def aC1 : Actor := ⟨"user1", "user"⟩

/-- Demo trainer for the C1 witness. -/
def tC1 : Trainer :=
  { userId := "trainer1", isActive := true,
    services := [{ id := "svc1", name := "in-person", price := 60 }],
    availableDays := [] }

/-- Demo booking request for the C1 witness. -/
def reqC1 : BookingRequest :=
  { trainerId := "trainer1", sessionType := "single",
    sessions := [{ type := "in-person", sessionType := "in-person",
                   duration := 60, date := 1000000 }],
    paymentMethod := "cash" }

/-- The line item the pricing loop produces on the demo request. -/
def itemC1 : LineItem :=
  { type := "in-person", sessionType := "in-person", duration := 60,
    date := 1000000, price := (60 : ℚ) / 60 * 60,
    serviceId := some "svc1", sessionId := none }

/-- The total the pricing loop produces on the demo request. -/
def totalC1 : ℚ := (60 : ℚ) / 60 * 60 + 0

/-- The booking the POST route persists on the demo request. -/
def bC1 : Booking := Booking.runHooks 0 true (newBooking aC1 reqC1 [itemC1] totalC1)

/-- Witness for C1 at a concrete accepted request. -/
theorem C1_booking_total_price_witness :
    bC1.totalPrice = (bC1.sessions.map LineItem.price).sum ∧
    List.Forall₂ (fun (r : SessionInput) (it : LineItem) =>
      ∃ svc, tC1.findService r.type = some svc ∧
        it.price = svc.price / 60 * r.duration ∧
        it.duration = r.duration ∧ it.type = r.type ∧ it.date = r.date)
      reqC1.sessions bC1.sessions := by
  have hv : (newBooking aC1 reqC1 [itemC1] totalC1).validate := by
    unfold Booking.validate newBooking aC1 reqC1 itemC1 totalC1
    refine ⟨by decide, by decide, by decide, by decide, ?_, by norm_num, by decide, by decide⟩
    intro it hit
    simp only [List.mem_singleton] at hit
    subst hit
    exact ⟨by decide, by decide, by decide⟩
  have hd : ¬ ∃ it ∈ (Booking.runHooks 0 true
      (newBooking aC1 reqC1 [itemC1] totalC1)).sessions, it.date < (0 : Int) := by
    rw [runHooks_sessions]
    simp [newBooking, itemC1]
  have hs : Booking.save 0 true (newBooking aC1 reqC1 [itemC1] totalC1) = .ok bC1 := by
    unfold Booking.save
    rw [if_neg (not_not_intro hv), if_neg hd]
    rfl
  have h : createBooking 0 aC1 (some tC1) reqC1 = .ok bC1 :=
    createBooking_eval 0 aC1 tC1 reqC1 [itemC1] totalC1 bC1
      (by decide) (by decide) (by decide) rfl hs
  exact C1_booking_total_price 0 aC1 tC1 reqC1 bC1 h

/-- What a 200 response of the booking status route entails: the new
status is set, exactly the one new entry is appended to statusHistory,
the paymentHistory and line items are untouched, the result is
persisted, and the session store was updated only by the cancellation
cascade (and only when the new status is cancelled). -/
theorem updateBookingStatus_ok {now : Int} {a : Actor} {st : String}
    {n : Option String} {b b' : Booking} {pb : Option Booking}
    {db db' : List Session}
    (h : updateBookingStatus now a st n (some b) db = (.success 200 b', pb, db')) :
    b'.status = st ∧
    b'.statusHistory = b.statusHistory ++ [⟨st, a.id, now, n⟩] ∧
    b'.paymentHistory = b.paymentHistory ∧
    b'.sessions = b.sessions ∧
    pb = some b' ∧
    db' = (if st = "cancelled" then cancelLinkedSessions a.id now b.sessions db else db) := by
  unfold updateBookingStatus at h
  split at h
  · simp at h
  split at h
  · simp at h
  next b0 heq =>
  injection heq with heqb
  subst heqb
  split at h
  · simp at h
  split at h
  · simp at h
  · rename_i b3 hsave
    split at h <;>
    · rename_i hc
      simp only [Prod.mk.injEq, HttpOutcome.success.injEq] at h
      obtain ⟨⟨-, hb3⟩, hpb, hdb⟩ := h
      subst hb3
      obtain ⟨hv, hb', hd⟩ := bookingSave_ok hsave
      rw [runHooks_not_new] at hb'
      subst hb'
      refine ⟨rfl, rfl, rfl, rfl, hpb.symm, ?_⟩
      rw [← hdb]
      simp only [beq_iff_eq] at hc
      simp [hc]

/-- What a 200 response of the payment route entails. -/
theorem updateBookingPayment_ok {now : Int} {a : Actor} {ps : String}
    {tid pm : Option String} {b b' : Booking} {pb : Option Booking}
    (h : updateBookingPayment now a ps tid pm (some b) = (.success 200 b', pb)) :
    b'.paymentStatus = ps ∧
    b'.paymentHistory = b.paymentHistory ++ [⟨ps, tid, pm, a.id, now⟩] ∧
    b'.statusHistory = b.statusHistory ∧
    b'.status = b.status ∧
    pb = some b' := by
  unfold updateBookingPayment at h
  split at h
  · simp at h
  split at h
  · simp at h
  next b0 heq =>
  injection heq with heqb
  subst heqb
  split at h
  · simp at h
  split at h
  · simp at h
  next b3 hsave =>
  simp only [Prod.mk.injEq, HttpOutcome.success.injEq] at h
  obtain ⟨⟨-, hb3⟩, hpb⟩ := h
  subst hb3
  obtain ⟨hv, hb', hd⟩ := bookingSave_ok hsave
  rw [runHooks_not_new] at hb'
  subst hb'
  exact ⟨rfl, rfl, rfl, rfl, hpb.symm⟩

/-- What a 200 response of the session status route entails. -/
theorem updateSessionStatus_ok {now : Int} {a : Actor} {st : String}
    {n : Option String} {s s' : Session} {ps : Option Session}
    (h : updateSessionStatus now a st n (some s) = (.success 200 s', ps)) :
    s'.status = st ∧
    s'.statusHistory = s.statusHistory ++ [⟨st, a.id, now, n⟩] ∧
    s'.date = s.date ∧
    ps = some s' := by
  unfold updateSessionStatus at h
  split at h
  · simp at h
  split at h
  · simp at h
  next s0 heq =>
  injection heq with heqs
  subst heqs
  split at h
  · simp at h
  split at h
  · simp at h
  next s3 hsave =>
  simp only [Prod.mk.injEq, HttpOutcome.success.injEq] at h
  obtain ⟨⟨-, hs3⟩, hps⟩ := h
  subst hs3
  obtain ⟨hv, hs', hd⟩ := sessionSave_ok hsave
  rw [sessionInitHistory_not_new] at hs'
  subst hs'
  exact ⟨rfl, rfl, rfl, hps.symm⟩

/-- C3: every successful mutation of a booking status, a booking
payment status, or a session status appends exactly one entry to the
corresponding history array, carrying the new status, the acting user
and the timestamp, and the previous entries are preserved unchanged
(the new history is the old history with the one entry appended). -/
theorem C3_history_append
    (now1 now2 now3 : Int) (a1 a2 a3 : Actor)
    (st1 : String) (n1 : Option String) (b1 b1' : Booking) (pb1 : Option Booking)
    (db1 db1' : List Session)
    (ps2 : String) (tid2 pm2 : Option String) (b2 b2' : Booking) (pb2 : Option Booking)
    (st3 : String) (n3 : Option String) (s3 s3' : Session) (ps3 : Option Session)
    (h1 : updateBookingStatus now1 a1 st1 n1 (some b1) db1 = (.success 200 b1', pb1, db1'))
    (h2 : updateBookingPayment now2 a2 ps2 tid2 pm2 (some b2) = (.success 200 b2', pb2))
    (h3 : updateSessionStatus now3 a3 st3 n3 (some s3) = (.success 200 s3', ps3)) :
    (b1'.status = st1 ∧
     b1'.statusHistory = b1.statusHistory ++ [⟨st1, a1.id, now1, n1⟩] ∧
     b1'.paymentHistory = b1.paymentHistory) ∧
    (b2'.paymentStatus = ps2 ∧
     b2'.paymentHistory = b2.paymentHistory ++ [⟨ps2, tid2, pm2, a2.id, now2⟩] ∧
     b2'.statusHistory = b2.statusHistory) ∧
    (s3'.status = st3 ∧
     s3'.statusHistory = s3.statusHistory ++ [⟨st3, a3.id, now3, n3⟩]) := by
  obtain ⟨x1, x2, x3, -, -, -⟩ := updateBookingStatus_ok h1
  obtain ⟨y1, y2, y3, -, -⟩ := updateBookingPayment_ok h2
  obtain ⟨z1, z2, -, -⟩ := updateSessionStatus_ok h3
  exact ⟨⟨x1, x2, x3⟩, ⟨y1, y2, y3⟩, ⟨z1, z2⟩⟩

/-- Demo actor shared by concrete route evaluations. -/
def aD : Actor := ⟨"user1", "user"⟩

/-- Demo booking with literal fields, so that route evaluation is pure
kernel computation. -/
def bD : Booking :=
  { id := "b1", userId := "user1", trainerId := "trainer1",
    sessionType := "single", sessions := [], totalPrice := 0,
    paymentMethod := "cash" }

/-- Demo session with a future date relative to time 100. -/
def sD : Session :=
  { id := "s1", userId := "user1", trainerId := "trainer1",
    type := "in-person", duration := 60, date := 5000,
    priceAmount := some 10 }

/-- The booking after the demo status update. -/
def bDstat : Booking :=
  { bD with status := "confirmed",
            statusHistory := [⟨"confirmed", "user1", 100, none⟩] }

/-- The booking after the demo payment update. -/
def bDpay : Booking :=
  { bD with paymentStatus := "paid",
            paymentHistory := [⟨"paid", none, none, "user1", 100⟩] }

/-- The session after the demo status update. -/
def sDstat : Session :=
  { sD with status := "completed",
            statusHistory := [⟨"completed", "user1", 100, none⟩] }

@[simp] theorem bookingWithStatus_sessions (now : Int) (aid st : String)
    (n : Option String) (b : Booking) :
    (bookingWithStatus now aid st n b).sessions = b.sessions := rfl

@[simp] theorem sessionWithStatus_date (now : Int) (aid st : String)
    (n : Option String) (s : Session) :
    (sessionWithStatus now aid st n s).date = s.date := rfl

@[simp] theorem initStatusHistory_userId (now : Int) (isNew : Bool) (b : Booking) :
    (Booking.initStatusHistory now isNew b).userId = b.userId := by
  unfold Booking.initStatusHistory; split <;> rfl

@[simp] theorem initStatusHistory_paymentMethod (now : Int) (isNew : Bool) (b : Booking) :
    (Booking.initStatusHistory now isNew b).paymentMethod = b.paymentMethod := by
  unfold Booking.initStatusHistory; split <;> rfl

/-- Validation survives the status-route mutation when the new status
is in the enum. -/
theorem bookingWithStatus_validate {now : Int} {aid st : String} {n : Option String}
    {b : Booking} (hv : b.validate) (hst : st ∈ bookingStatuses) :
    (bookingWithStatus now aid st n b).validate := by
  obtain ⟨v1, v2, v3, v4, v5, v6, v7, v8⟩ := hv
  refine ⟨v1, v2, hst, v4, v5, v6, fun e he => ?_, v8⟩
  rcases List.mem_append.mp he with hin | hin
  · exact v7 e hin
  · simp only [List.mem_singleton] at hin
    subst hin
    exact hst

/-- Validation survives the session-status-route mutation when the new
status is in the enum. -/
theorem sessionWithStatus_validate {now : Int} {aid st : String} {n : Option String}
    {s : Session} (hv : s.validate) (hst : st ∈ sessionStatuses) :
    (sessionWithStatus now aid st n s).validate := by
  obtain ⟨v1, v2, v3, v4, v5, v6⟩ := hv
  refine ⟨v1, v2, v3, hst, v5, fun e he => ?_⟩
  rcases List.mem_append.mp he with hin | hin
  · exact v6 e hin
  · simp only [List.mem_singleton] at hin
    subst hin
    exact hst

/-- Evaluation of the booking status route on a successful save. -/
theorem updateBookingStatus_eval_ok (now : Int) (a : Actor) (st : String)
    (n : Option String) (b : Booking) (db : List Session) (b3 : Booking)
    (hst : st ∈ bookingStatuses)
    (hpart : ¬ (b.userId ≠ a.id ∧ b.trainerId ≠ a.id))
    (hs : Booking.save now false (bookingWithStatus now a.id st n b) = .ok b3) :
    updateBookingStatus now a st n (some b) db =
      (.success 200 b3, some b3,
       if st = "cancelled" then cancelLinkedSessions a.id now b.sessions db else db) := by
  unfold updateBookingStatus
  rw [if_neg (not_not_intro hst)]
  dsimp only
  rw [if_neg hpart, hs]
  by_cases hc : st = "cancelled" <;> simp [hc]

/-- Evaluation of the session status route on a failing save. -/
theorem updateSessionStatus_eval_err (now : Int) (a : Actor) (st : String)
    (n : Option String) (s : Session) (e : String)
    (hst : st ∈ sessionStatuses)
    (hpart : ¬ (s.userId ≠ a.id ∧ s.trainerId ≠ a.id))
    (hs : Session.save now false (sessionWithStatus now a.id st n s) = .error e) :
    updateSessionStatus now a st n (some s) =
      (.failure 500 "Server error while updating session status", some s) := by
  unfold updateSessionStatus
  rw [if_neg (not_not_intro hst)]
  dsimp only
  rw [if_neg hpart, hs]

/-- Witness for C3 on concrete successful updates. -/
theorem C3_history_append_witness :
    (bDstat.status = "confirmed" ∧
     bDstat.statusHistory = bD.statusHistory ++ [⟨"confirmed", aD.id, 100, none⟩] ∧
     bDstat.paymentHistory = bD.paymentHistory) ∧
    (bDpay.paymentStatus = "paid" ∧
     bDpay.paymentHistory = bD.paymentHistory ++ [⟨"paid", none, none, aD.id, 100⟩] ∧
     bDpay.statusHistory = bD.statusHistory) ∧
    (sDstat.status = "completed" ∧
     sDstat.statusHistory = sD.statusHistory ++ [⟨"completed", aD.id, 100, none⟩]) :=
  C3_history_append 100 100 100 aD aD aD
    "confirmed" none bD bDstat (some bDstat) [] []
    "paid" none none bD bDpay (some bDpay)
    "completed" none sD sDstat (some sDstat)
    (by rfl) (by rfl) (by rfl)

end Trainerproj

namespace Trainerproj

/-- Booking whose one line item is dated in the past relative to time
100, exactly as any booking looks once its sessions have taken place. -/
def bPast : Booking :=
  { id := "b2", userId := "user1", trainerId := "trainer1",
    sessionType := "single",
    sessions := [{ type := "in-person", sessionType := "in-person",
                   duration := 60, date := 0, price := 50,
                   serviceId := none, sessionId := none }],
    totalPrice := 50, paymentMethod := "cash", status := "pending",
    statusHistory := [⟨"pending", "user1", 0, some "Booking created"⟩],
    paymentHistory := [⟨"pending", none, some "cash", "user1", 0⟩] }

/-- C5 counterexample: a participant asks for the enum transition
pending to confirmed on a booking whose session date has passed, and
the endpoint returns 500 instead of succeeding, because the date
validation hook rejects every save of such a booking. -/
theorem C5_counterexample :
    bPast.userId = aD.id ∧
    bPast.status = "pending" ∧ ("confirmed" : String) ∈ bookingStatuses ∧
    updateBookingStatus 100 aD "confirmed" none (some bPast) [] =
      (.failure 500 "Server error while updating booking status", some bPast, []) :=
  ⟨rfl, rfl, by decide, by rfl⟩

/-- C5 amended: the booking status route imposes no restriction based
on the current status: for a participant actor, any target status of
the enum, and any booking that passes schema validation and has no
line item dated in the past, the update succeeds and sets the new
status, whatever the current status is. -/
theorem C5_no_transition_restriction (now : Int) (a : Actor) (st : String)
    (n : Option String) (b : Booking) (db : List Session)
    (hpart : b.userId = a.id ∨ b.trainerId = a.id)
    (hst : st ∈ bookingStatuses)
    (hv : b.validate)
    (hd : ∀ it ∈ b.sessions, ¬ it.date < now) :
    ∃ b', updateBookingStatus now a st n (some b) db =
        (.success 200 b', some b',
         if st = "cancelled" then cancelLinkedSessions a.id now b.sessions db else db) ∧
      b'.status = st := by
  have hpart' : ¬ (b.userId ≠ a.id ∧ b.trainerId ≠ a.id) := fun hc => hpart.elim hc.1 hc.2
  have hv2 : (bookingWithStatus now a.id st n b).validate := bookingWithStatus_validate hv hst
  have hd2 : ∀ it ∈ (bookingWithStatus now a.id st n b).sessions, ¬ it.date < now := by
    simpa using hd
  obtain ⟨b3, hs⟩ := (bookingSave_eq_ok_iff now false (bookingWithStatus now a.id st n b)).mpr
    ⟨hv2, hd2⟩
  refine ⟨b3, updateBookingStatus_eval_ok now a st n b db b3 hst hpart' hs, ?_⟩
  obtain ⟨-, hb3, -⟩ := bookingSave_ok hs
  rw [hb3, runHooks_not_new]
  rfl

/-- Witness for the amended C5: the odd transition completed to pending
is accepted on a date-clean booking. -/
theorem C5_no_transition_restriction_witness :
    ∃ b', updateBookingStatus 100 aD "pending" none (some { bD with status := "completed" }) [] =
        (.success 200 b', some b',
         if ("pending" : String) = "cancelled"
         then cancelLinkedSessions aD.id 100 ({ bD with status := "completed" }).sessions [] else []) ∧
      b'.status = "pending" :=
  C5_no_transition_restriction 100 aD "pending" none { bD with status := "completed" } []
    (Or.inl rfl) (by decide) (by decide) (by simp [bD])

/-- Session dated in the past relative to time 100. -/
def sPast : Session :=
  { id := "s2", userId := "user1", trainerId := "trainer1",
    type := "in-person", duration := 60, date := 0, priceAmount := some 10 }

/-- C7: a save of a schema-valid Session dated before now fails with
the date-hook error on every save, a Booking with a past-dated line
item likewise fails to save, and consequently the session status route
cannot persist any new status for a past session: for a participant
actor and an enum status it returns 500 and the persisted session is
unchanged. -/
theorem C7_past_date_rejection (now : Int) (isNew : Bool) (a : Actor) (st : String)
    (n : Option String) (s : Session) (b : Booking)
    (hsd : s.date < now) (hsv : s.validate)
    (hst : st ∈ sessionStatuses) (hpart : s.userId = a.id ∨ s.trainerId = a.id)
    (hbd : ∃ it ∈ b.sessions, it.date < now) (hbv : b.validate) :
    Session.save now isNew s = .error "Session date cannot be in the past" ∧
    Booking.save now isNew b = .error "Session dates cannot be in the past" ∧
    updateSessionStatus now a st n (some s) =
      (.failure 500 "Server error while updating session status", some s) := by
  have hpart' : ¬ (s.userId ≠ a.id ∧ s.trainerId ≠ a.id) := fun hc => hpart.elim hc.1 hc.2
  refine ⟨sessionSave_past_date hsv hsd, ?_, ?_⟩
  · unfold Booking.save
    rw [if_neg (not_not_intro hbv), if_pos (by simpa using hbd)]
  · have hv2 : (sessionWithStatus now a.id st n s).validate :=
      sessionWithStatus_validate hsv hst
    have hs : Session.save now false (sessionWithStatus now a.id st n s) =
        .error "Session date cannot be in the past" :=
      sessionSave_past_date hv2 (by simpa using hsd)
    exact updateSessionStatus_eval_err now a st n s _ hst hpart' hs

/-- Witness for C7 on a concrete past session and booking. -/
theorem C7_past_date_rejection_witness :
    Session.save 100 false sPast = .error "Session date cannot be in the past" ∧
    Booking.save 100 false bPast = .error "Session dates cannot be in the past" ∧
    updateSessionStatus 100 aD "completed" none (some sPast) =
      (.failure 500 "Server error while updating session status", some sPast) :=
  C7_past_date_rejection 100 false aD "completed" none sPast bPast
    (by decide) (by decide) (by decide) (Or.inl rfl) (by decide) (by decide)

/-- C9: the first save of a fresh booking or session (empty history
arrays) initializes statusHistory, and for bookings paymentHistory,
with exactly the one creation entry recording the initial status and
attributed to the owning user; and every successful save only ever
appends to the history arrays, so the first entry stays the creation
entry. -/
theorem C9_creation_initializes_history (now : Int) (b : Booking) (s : Session)
    (b' : Booking) (s' : Session)
    (hb0 : b.statusHistory = []) (hbp : b.paymentHistory = [])
    (hbs : Booking.save now true b = .ok b')
    (hs0 : s.statusHistory = [])
    (hss : Session.save now true s = .ok s') :
    b'.statusHistory = [⟨b.status, b.userId, now, some "Booking created"⟩] ∧
    b'.paymentHistory = [⟨b.paymentStatus, none, some b.paymentMethod, b.userId, now⟩] ∧
    s'.statusHistory = [⟨s.status, s.userId, now, some "Session created"⟩] ∧
    (∀ (n2 : Int) (isNew : Bool) (b2 b2' : Booking), Booking.save n2 isNew b2 = .ok b2' →
      (∃ tl, b2'.statusHistory = b2.statusHistory ++ tl) ∧
      (∃ tl, b2'.paymentHistory = b2.paymentHistory ++ tl)) ∧
    (∀ (n2 : Int) (isNew : Bool) (s2 s2' : Session), Session.save n2 isNew s2 = .ok s2' →
      ∃ tl, s2'.statusHistory = s2.statusHistory ++ tl) := by
  obtain ⟨-, hb', -⟩ := bookingSave_ok hbs
  obtain ⟨-, hs', -⟩ := sessionSave_ok hss
  subst hb'
  subst hs'
  refine ⟨?_, ?_, ?_, ?_, ?_⟩
  · simp [Booking.runHooks, Booking.initStatusHistory, Booking.initPaymentHistory, hb0, hbp]
  · simp [Booking.runHooks, Booking.initStatusHistory, Booking.initPaymentHistory, hb0, hbp]
  · simp [Session.initHistory, hs0]
  · intro n2 isNew b2 b2' hsave
    obtain ⟨-, hb2, -⟩ := bookingSave_ok hsave
    subst hb2
    exact ⟨runHooks_statusHistory_tail n2 isNew b2, runHooks_paymentHistory_tail n2 isNew b2⟩
  · intro n2 isNew s2 s2' hsave
    obtain ⟨-, hs2, -⟩ := sessionSave_ok hsave
    subst hs2
    exact sessionInitHistory_tail n2 isNew s2

/-- The demo booking and session after their first save. -/
def bDsaved : Booking := Booking.runHooks 0 true bD

/-- The demo session after its first save. -/
def sDsaved : Session := Session.initHistory 0 true sD

/-- Witness for C9 on concrete fresh documents. -/
theorem C9_creation_initializes_history_witness :
    bDsaved.statusHistory = [⟨bD.status, bD.userId, 0, some "Booking created"⟩] ∧
    bDsaved.paymentHistory = [⟨bD.paymentStatus, none, some bD.paymentMethod, bD.userId, 0⟩] ∧
    sDsaved.statusHistory = [⟨sD.status, sD.userId, 0, some "Session created"⟩] ∧
    (∀ (n2 : Int) (isNew : Bool) (b2 b2' : Booking), Booking.save n2 isNew b2 = .ok b2' →
      (∃ tl, b2'.statusHistory = b2.statusHistory ++ tl) ∧
      (∃ tl, b2'.paymentHistory = b2.paymentHistory ++ tl)) ∧
    (∀ (n2 : Int) (isNew : Bool) (s2 s2' : Session), Session.save n2 isNew s2 = .ok s2' →
      ∃ tl, s2'.statusHistory = s2.statusHistory ++ tl) :=
  C9_creation_initializes_history 0 bD sD bDsaved sDsaved rfl rfl (by rfl) rfl (by rfl)

end Trainerproj

namespace Trainerproj

/-- The cascade loop acts on the session store pointwise. -/
theorem cancelLinkedSessions_eq_map (aid : String) (now : Int) (items : List LineItem) :
    ∀ db : List Session,
      cancelLinkedSessions aid now items db = db.map (cancelOne aid now items) := by
  induction items with
  | nil =>
    intro db
    simp [cancelLinkedSessions, cancelOne]
  | cons it rest ih =>
    intro db
    cases hsid : it.sessionId with
    | some sid =>
      simp only [cancelLinkedSessions, hsid]
      rw [ih (db.map (cancelById aid now sid)), List.map_map]
      have hfun : (cancelOne aid now rest ∘ cancelById aid now sid) =
          cancelOne aid now (it :: rest) := by
        funext s
        simp [cancelOne, hsid]
      rw [hfun]
    | none =>
      simp only [cancelLinkedSessions, hsid]
      rw [ih db]
      have hfun : cancelOne aid now rest = cancelOne aid now (it :: rest) := by
        funext s
        simp [cancelOne, hsid]
      rw [hfun]

@[simp] theorem cancelById_id (aid : String) (now : Int) (sid : String) (s : Session) :
    (cancelById aid now sid s).id = s.id := by
  unfold cancelById; split <;> rfl

/-- A session whose id is carried by no line item passes through the
cascade unchanged. -/
theorem cancelOne_not_linked (aid : String) (now : Int) (items : List LineItem) :
    ∀ s : Session, s.id ∉ items.filterMap LineItem.sessionId →
      cancelOne aid now items s = s := by
  induction items with
  | nil => intro s _; rfl
  | cons it rest ih =>
    intro s hmem
    cases hsid : it.sessionId with
    | some sid =>
      rw [List.filterMap_cons] at hmem
      rw [hsid] at hmem
      simp only [List.mem_cons] at hmem
      push_neg at hmem
      have hne : ¬ (s.id == sid) = true := by simpa using hmem.1
      simp only [cancelOne, hsid, cancelById, if_neg hne]
      exact ih s hmem.2
    | none =>
      rw [List.filterMap_cons] at hmem
      rw [hsid] at hmem
      simp only [cancelOne, hsid]
      exact ih s hmem
  
/-- A session whose id is carried by some line item comes out of the
cascade cancelled, with a nonempty block of cascade entries appended to
its history and every other field unchanged. -/
theorem cancelOne_linked (aid : String) (now : Int) (items : List LineItem) :
    ∀ s : Session, s.id ∈ items.filterMap LineItem.sessionId →
      ∃ tail, tail ≠ [] ∧ (∀ e ∈ tail, e = cascadeEntry aid now) ∧
        cancelOne aid now items s =
          { s with status := "cancelled", statusHistory := s.statusHistory ++ tail } := by
  induction items with
  | nil => intro s hmem; simp at hmem
  | cons it rest ih =>
    intro s hmem
    cases hsid : it.sessionId with
    | none =>
      rw [List.filterMap_cons, hsid] at hmem
      simp only [cancelOne, hsid]
      exact ih s hmem
    | some sid =>
      rw [List.filterMap_cons, hsid] at hmem
      simp only [List.mem_cons] at hmem
      simp only [cancelOne, hsid]
      by_cases heq : s.id = sid
      · have hupd : cancelById aid now sid s =
            { s with status := "cancelled",
                     statusHistory := s.statusHistory ++ [cascadeEntry aid now] } := by
          simp [cancelById, heq]
        rw [hupd]
        by_cases hmem2 : s.id ∈ rest.filterMap LineItem.sessionId
        · obtain ⟨tail, hne, hall, hres⟩ := ih
            { s with status := "cancelled",
                     statusHistory := s.statusHistory ++ [cascadeEntry aid now] }
            (by simpa using hmem2)
          rw [hres]
          refine ⟨cascadeEntry aid now :: tail, by simp, ?_, ?_⟩
          · intro e he
            rcases List.mem_cons.mp he with h | h
            · exact h
            · exact hall e h
          · simp
        · rw [cancelOne_not_linked aid now rest _ (by simpa using hmem2)]
          exact ⟨[cascadeEntry aid now], by simp, by simp, rfl⟩
      · have hne : ¬ (s.id == sid) = true := by simpa using heq
        rw [show cancelById aid now sid s = s by simp [cancelById, hne]]
        rcases hmem with h | h
        · exact absurd h heq
        · exact ih s h

end Trainerproj

namespace Trainerproj

/-- C8: the booking DELETE route cancels only bookings whose current
status is pending or confirmed; for any other status it returns 400
with the booking and the session store untouched; on success the
persisted booking is cancelled with the cancellation entry appended,
and the session store is updated pointwise: every stored session whose
id is linked from a line item is cancelled with cascade entries
appended to its history, and every other stored session is unchanged. -/
theorem C8_delete_cancel (now : Int) (a : Actor) (b : Booking) (db : List Session)
    (hpart : b.userId = a.id ∨ b.trainerId = a.id) :
    (b.status ∉ (["pending", "confirmed"] : List String) →
      deleteBooking now a (some b) db =
        (.failure 400 "Cannot cancel booking in current status", some b, db)) ∧
    (∀ (u : Unit) (pb : Option Booking) (db' : List Session),
      deleteBooking now a (some b) db = (.success 200 u, pb, db') →
      b.status ∈ (["pending", "confirmed"] : List String) ∧
      ∃ b2, pb = some b2 ∧ b2.status = "cancelled" ∧
        b2.statusHistory = b.statusHistory ++
          [⟨"cancelled", a.id, now, some "Booking cancelled by user"⟩] ∧
        db' = db.map (cancelOne a.id now b.sessions) ∧
        ∀ s ∈ db,
          (s.id ∈ linkedIds b →
            ∃ tail, tail ≠ [] ∧ (∀ e ∈ tail, e = cascadeEntry a.id now) ∧
              cancelOne a.id now b.sessions s =
                { s with status := "cancelled",
                         statusHistory := s.statusHistory ++ tail }) ∧
          (s.id ∉ linkedIds b → cancelOne a.id now b.sessions s = s)) := by
  have hpart' : ¬ (b.userId ≠ a.id ∧ b.trainerId ≠ a.id) := fun hc => hpart.elim hc.1 hc.2
  constructor
  · intro h400
    unfold deleteBooking
    dsimp only
    rw [if_neg hpart', if_pos h400]
  · intro u pb db' h
    unfold deleteBooking at h
    dsimp only at h
    rw [if_neg hpart'] at h
    split at h
    · simp at h
    next hstat =>
    split at h
    · simp at h
    next b2 hsave =>
    simp only [Prod.mk.injEq, HttpOutcome.success.injEq] at h
    obtain ⟨-, hpb, hdb⟩ := h
    refine ⟨not_not.mp hstat, b2, hpb.symm, ?_, ?_, ?_, ?_⟩
    · obtain ⟨-, hb2, -⟩ := bookingSave_ok hsave
      rw [hb2, runHooks_not_new]
      rfl
    · obtain ⟨-, hb2, -⟩ := bookingSave_ok hsave
      rw [hb2, runHooks_not_new]
      rfl
    · rw [← hdb, cancelLinkedSessions_eq_map]
    · intro s hs
      exact ⟨cancelOne_linked a.id now b.sessions s, cancelOne_not_linked a.id now b.sessions s⟩

/-- Line item linked to the stored session s1. -/
def itemL : LineItem :=
  { type := "in-person", sessionType := "in-person", duration := 60,
    date := 5000, price := 50, serviceId := none, sessionId := some "s1" }

/-- Booking with one linked, future-dated line item, in status pending. -/
def bL : Booking :=
  { id := "b3", userId := "user1", trainerId := "trainer1",
    sessionType := "single", sessions := [itemL], totalPrice := 50,
    paymentMethod := "cash", status := "pending",
    statusHistory := [⟨"pending", "user1", 0, some "Booking created"⟩],
    paymentHistory := [⟨"pending", none, some "cash", "user1", 0⟩] }

/-- The stored session linked from bL. -/
def sLink : Session :=
  { id := "s1", userId := "user1", trainerId := "trainer1",
    type := "in-person", duration := 60, date := 5000,
    priceAmount := some 50,
    statusHistory := [⟨"scheduled", "user1", 0, some "Session created"⟩] }

/-- Witness for C8: the 400 branch on a completed booking, and the
success branch on a pending booking with one linked session. -/
theorem C8_delete_cancel_witness :
    (deleteBooking 100 aD (some { bL with status := "completed" }) [sLink] =
      (.failure 400 "Cannot cancel booking in current status",
       some { bL with status := "completed" }, [sLink])) ∧
    (bL.status ∈ (["pending", "confirmed"] : List String) ∧
      ∃ b2, some (cancelledBooking 100 aD.id bL) = some b2 ∧ b2.status = "cancelled" ∧
        b2.statusHistory = bL.statusHistory ++
          [⟨"cancelled", aD.id, 100, some "Booking cancelled by user"⟩] ∧
        cancelLinkedSessions aD.id 100 bL.sessions [sLink] =
          [sLink].map (cancelOne aD.id 100 bL.sessions) ∧
        ∀ s ∈ [sLink],
          (s.id ∈ linkedIds bL →
            ∃ tail, tail ≠ [] ∧ (∀ e ∈ tail, e = cascadeEntry aD.id 100) ∧
              cancelOne aD.id 100 bL.sessions s =
                { s with status := "cancelled",
                         statusHistory := s.statusHistory ++ tail }) ∧
          (s.id ∉ linkedIds bL → cancelOne aD.id 100 bL.sessions s = s)) := by
  constructor
  · exact (C8_delete_cancel 100 aD { bL with status := "completed" } [sLink]
      (Or.inl rfl)).1 (by decide)
  · exact (C8_delete_cancel 100 aD bL [sLink] (Or.inl rfl)).2 ()
      (some (cancelledBooking 100 aD.id bL))
      (cancelLinkedSessions aD.id 100 bL.sessions [sLink]) (by rfl)

end Trainerproj

namespace Trainerproj

/-- An entry of the statusHistory of a hook-adjusted booking is an old
entry or carries the current status. -/
theorem initStatusHistory_mem {now : Int} {isNew : Bool} {b : Booking}
    (e : StatusEntry) (he : e ∈ (Booking.initStatusHistory now isNew b).statusHistory) :
    e ∈ b.statusHistory ∨ e.status = b.status := by
  unfold Booking.initStatusHistory at he
  split at he
  · rcases List.mem_append.mp he with h | h
    · exact Or.inl h
    · simp only [List.mem_singleton] at h
      subst h
      exact Or.inr rfl
  · exact Or.inl he

/-- An entry of the paymentHistory of a hook-adjusted booking is an old
entry or carries the current payment status. -/
theorem initPaymentHistory_mem {now : Int} {isNew : Bool} {b : Booking}
    (e : PaymentEntry) (he : e ∈ (Booking.initPaymentHistory now isNew b).paymentHistory) :
    e ∈ b.paymentHistory ∨ e.status = b.paymentStatus := by
  unfold Booking.initPaymentHistory at he
  split at he
  · rcases List.mem_append.mp he with h | h
    · exact Or.inl h
    · simp only [List.mem_singleton] at h
      subst h
      exact Or.inr rfl
  · exact Or.inl he

/-- An entry of the statusHistory of a hook-adjusted session is an old
entry or carries the current status. -/
theorem sessionInitHistory_mem {now : Int} {isNew : Bool} {s : Session}
    (e : StatusEntry) (he : e ∈ (Session.initHistory now isNew s).statusHistory) :
    e ∈ s.statusHistory ∨ e.status = s.status := by
  unfold Session.initHistory at he
  split at he
  · rcases List.mem_append.mp he with h | h
    · exact Or.inl h
    · simp only [List.mem_singleton] at h
      subst h
      exact Or.inr rfl
  · exact Or.inl he

/-- Every successfully saved booking has enum-valid status fields and
enum-valid history entries. -/
theorem bookingSave_wf {now : Int} {isNew : Bool} {b b' : Booking}
    (h : Booking.save now isNew b = .ok b') :
    b'.status ∈ bookingStatuses ∧ b'.paymentStatus ∈ paymentStatuses ∧
    (∀ e ∈ b'.statusHistory, e.status ∈ bookingStatuses) ∧
    (∀ e ∈ b'.paymentHistory, e.status ∈ paymentStatuses) := by
  obtain ⟨hv, hb', -⟩ := bookingSave_ok h
  obtain ⟨-, -, v3, v4, -, -, v7, v8⟩ := hv
  subst hb'
  refine ⟨by simpa using v3, by simpa using v4, ?_, ?_⟩
  · intro e he
    rw [Booking.runHooks, initPaymentHistory_statusHistory] at he
    rcases initStatusHistory_mem e he with h | h
    · exact v7 e h
    · rw [h]; exact v3
  · intro e he
    rcases initPaymentHistory_mem e he with h | h
    · rw [initStatusHistory_paymentHistory] at h
      exact v8 e h
    · rw [h, initStatusHistory_paymentStatus]
      exact v4
  
/-- Every successfully saved session has an enum-valid status and
enum-valid history entries. -/
theorem sessionSave_wf {now : Int} {isNew : Bool} {s s' : Session}
    (h : Session.save now isNew s = .ok s') :
    s'.status ∈ sessionStatuses ∧ ∀ e ∈ s'.statusHistory, e.status ∈ sessionStatuses := by
  obtain ⟨hv, hs', -⟩ := sessionSave_ok h
  obtain ⟨-, -, -, v4, -, v6⟩ := hv
  subst hs'
  refine ⟨by simpa using v4, ?_⟩
  intro e he
  rcases sessionInitHistory_mem e he with h | h
  · exact v6 e h
  · rw [h]; exact v4

/-- Successful booking creation decomposed into its route stages. -/
theorem createBooking_ok_shape {now : Int} {actor : Actor} {t? : Option Trainer}
    {req : BookingRequest} {b : Booking}
    (h : createBooking now actor t? req = .ok b) :
    ∃ t items total, t? = some t ∧
      priceSessions t req.sessions = some (items, total) ∧
      Booking.save now true (newBooking actor req items total) = .ok b := by
  unfold createBooking at h
  split at h
  · cases h
  split at h
  · cases h
  cases t? with
  | none => exact absurd h (by simp)
  | some t =>
    dsimp only at h
    split at h
    · cases h
    cases hp : priceSessions t req.sessions with
    | none => rw [hp] at h; cases h
    | some p =>
      obtain ⟨items, total⟩ := p
      rw [hp] at h
      dsimp only at h
      cases hsave : Booking.save now true (newBooking actor req items total) with
      | error e => rw [hsave] at h; cases h
      | ok b1 =>
        rw [hsave] at h
        cases h
        exact ⟨t, items, total, rfl, hp, hsave⟩

/-- C6: statuses stay inside their enums and histories grow only by
appending: a booking created by the POST route has status pending with
enum-valid history; every successfully saved booking or session has its
status and payment status inside the schema enums and all history
entries carry enum values, with the history only extended; the route
construction of a session carries the default status scheduled; and
the cascade update, the one write path that bypasses save, preserves
enum-valid statuses and histories. -/
theorem C6_status_enum_invariants :
    (∀ (now : Int) (actor : Actor) (t? : Option Trainer) (req : BookingRequest) (b : Booking),
      createBooking now actor t? req = .ok b →
        b.status = "pending" ∧ ∀ e ∈ b.statusHistory, e.status ∈ bookingStatuses) ∧
    (∀ (now : Int) (isNew : Bool) (b b' : Booking), Booking.save now isNew b = .ok b' →
        b'.status ∈ bookingStatuses ∧ b'.paymentStatus ∈ paymentStatuses ∧
        (∀ e ∈ b'.statusHistory, e.status ∈ bookingStatuses) ∧
        (∀ e ∈ b'.paymentHistory, e.status ∈ paymentStatuses) ∧
        ∃ tl, b'.statusHistory = b.statusHistory ++ tl) ∧
    (∀ (now : Int) (isNew : Bool) (s s' : Session), Session.save now isNew s = .ok s' →
        s'.status ∈ sessionStatuses ∧
        (∀ e ∈ s'.statusHistory, e.status ∈ sessionStatuses) ∧
        ∃ tl, s'.statusHistory = s.statusHistory ++ tl) ∧
    (∀ (aid : String) (req : SessionRequest), (newSession aid req).status = "scheduled") ∧
    (∀ (aid : String) (now : Int) (items : List LineItem) (db : List Session),
        (∀ s ∈ db, s.status ∈ sessionStatuses ∧
          ∀ e ∈ s.statusHistory, e.status ∈ sessionStatuses) →
        ∀ s' ∈ cancelLinkedSessions aid now items db,
          s'.status ∈ sessionStatuses ∧
          ∀ e ∈ s'.statusHistory, e.status ∈ sessionStatuses) := by
  refine ⟨?_, ?_, ?_, ?_, ?_⟩
  · intro now actor t? req b h
    obtain ⟨t, items, total, -, -, hsave⟩ := createBooking_ok_shape h
    obtain ⟨-, hb', -⟩ := bookingSave_ok hsave
    obtain ⟨-, -, hwf, -⟩ := bookingSave_wf hsave
    constructor
    · rw [hb']
      simp [newBooking]
    · exact hwf
  · intro now isNew b b' h
    obtain ⟨w1, w2, w3, w4⟩ := bookingSave_wf h
    obtain ⟨-, hb', -⟩ := bookingSave_ok h
    subst hb'
    exact ⟨w1, w2, w3, w4, runHooks_statusHistory_tail now isNew b⟩
  · intro now isNew s s' h
    obtain ⟨w1, w2⟩ := sessionSave_wf h
    obtain ⟨-, hs', -⟩ := sessionSave_ok h
    subst hs'
    exact ⟨w1, w2, sessionInitHistory_tail now isNew s⟩
  · intro aid req
    rfl
  · intro aid now items db hdb s' hs'
    rw [cancelLinkedSessions_eq_map] at hs'
    obtain ⟨s, hs, hmap⟩ := List.mem_map.mp hs'
    subst hmap
    by_cases hlink : s.id ∈ items.filterMap LineItem.sessionId
    · obtain ⟨tail, -, hall, hres⟩ := cancelOne_linked aid now items s hlink
      rw [hres]
      constructor
      · simp [bookingStatuses, sessionStatuses]
      · intro e he
        rcases List.mem_append.mp he with h | h
        · exact (hdb s hs).2 e h
        · rw [hall e h]
          simp [cascadeEntry, sessionStatuses]
    · rw [cancelOne_not_linked aid now items s hlink]
      exact hdb s hs

/-- Witness for C6 on concrete saves and a concrete cascade. -/
theorem C6_status_enum_invariants_witness :
    (bDsaved.status ∈ bookingStatuses ∧ bDsaved.paymentStatus ∈ paymentStatuses ∧
     (∀ e ∈ bDsaved.statusHistory, e.status ∈ bookingStatuses) ∧
     (∀ e ∈ bDsaved.paymentHistory, e.status ∈ paymentStatuses) ∧
     ∃ tl, bDsaved.statusHistory = bD.statusHistory ++ tl) ∧
    (sDsaved.status ∈ sessionStatuses ∧
     (∀ e ∈ sDsaved.statusHistory, e.status ∈ sessionStatuses) ∧
     ∃ tl, sDsaved.statusHistory = sD.statusHistory ++ tl) ∧
    (∀ s' ∈ cancelLinkedSessions aD.id 100 bL.sessions [sLink],
      s'.status ∈ sessionStatuses ∧
      ∀ e ∈ s'.statusHistory, e.status ∈ sessionStatuses) :=
  ⟨C6_status_enum_invariants.2.1 0 true bD bDsaved (by rfl),
   C6_status_enum_invariants.2.2.1 0 true sD sDsaved (by rfl),
   C6_status_enum_invariants.2.2.2.2 aD.id 100 bL.sessions [sLink] (by decide)⟩

end Trainerproj

namespace Trainerproj

/-- Trainer available on every day of the week. -/
def tAvail : Trainer :=
  { userId := "trainer1", isActive := true, services := [],
    availableDays := ["monday", "tuesday", "wednesday", "thursday",
                      "friday", "saturday", "sunday"] }

/-- A well-formed session creation request dated three days after the
epoch. -/
def reqS : SessionRequest :=
  { trainerId := "trainer1", type := "in-person", duration := 60,
    date := 259200000 }

/-- A stored scheduled session of the same trainer at exactly the
requested time. -/
def sConf : Session :=
  { id := "sc", userId := "user2", trainerId := "trainer1",
    type := "in-person", duration := 60, date := 259200000,
    priceAmount := some 10 }

/-- C2 failing run: the session POST route formats the weekday with the
option value lowercase, which ECMA-402 rejects with a RangeError, so
the route returns 500 for every request that reaches the availability
check: with no stored session (no time conflict exists, so the claim
demands acceptance) the route still answers 500 and stores nothing, and
with a directly conflicting stored session (the claim demands a 400)
the route also answers 500. The conflict check is unreachable. -/
theorem C2_conflict_check_unreachable :
    createSession 1000 aD (some tAvail) [] reqS =
      (.failure 500 "Server error while creating session", []) ∧
    ¬ hasTimeConflict [] reqS.trainerId reqS.date reqS.duration ∧
    createSession 1000 aD (some tAvail) [sConf] reqS =
      (.failure 500 "Server error while creating session", [sConf]) ∧
    hasTimeConflict [sConf] reqS.trainerId reqS.date reqS.duration := by
  refine ⟨by rfl, by simp [hasTimeConflict], by rfl, ?_⟩
  refine ⟨sConf, by simp, rfl, ?_, ?_, Or.inl rfl⟩
  · show (259200000 : ℚ) - 60 * 60000 ≤ ((259200000 : Int) : ℚ)
    norm_num
  · show ((259200000 : Int) : ℚ) ≤ (259200000 : ℚ) + 60 * 60000
    norm_num

/-- Yoga service of the flexible-matching demo trainer. -/
def svcYoga : Service := { id := "sv1", name := "Yoga", price := 50 }

/-- Personal Training service of the flexible-matching demo trainer. -/
def svcPT : Service := { id := "sv2", name := "Personal Training", price := 85 }

/-- Demo trainer for the start.bat matching, Yoga listed first. -/
def tFlex : Trainer :=
  { userId := "trainer2", isActive := true,
    services := [svcYoga, svcPT], availableDays := [] }

/-- Demo request item whose service name matches no service exactly. -/
def inputPT : SessionInput :=
  { type := "personal training", sessionType := "in-person",
    duration := 60, date := 5000 }

/-- C4 counterexample: the requested name personal training matches no
service exactly, yet the start.bat matcher does not fall back to the
first service (Yoga, hourly 50): its case-insensitive layer selects the
second service (Personal Training, hourly 85), so the item is priced 85
and not the 50 the claim predicts. -/
theorem C4_counterexample :
    (∀ svc ∈ tFlex.services, svc.name ≠ "personal training") ∧
    tFlex.services.head? = some svcYoga ∧
    matchServiceFlex tFlex "personal training" = some svcPT ∧
    flexItemPrice tFlex inputPT = some ((85 : ℚ) / 60 * 60) ∧
    (85 : ℚ) / 60 * 60 = 85 ∧ (50 : ℚ) / 60 * 60 = 50 ∧ (85 : ℚ) ≠ 50 := by
  refine ⟨by decide, rfl, by rfl, by rfl, by norm_num, by norm_num, by norm_num⟩

/-- The matcher returns none exactly for a trainer with no services. -/
theorem matchServiceFlex_none_iff (t : Trainer) (nm : String) :
    matchServiceFlex t nm = none ↔ t.services = [] := by
  unfold matchServiceFlex
  cases hf : t.services.find? (fun s => flexMatches s.name nm) with
  | some s =>
    constructor
    · intro hcon
      exact absurd hcon (by simp)
    · intro hnil
      rw [hnil] at hf
      cases hf
  | none => exact List.head?_eq_none_iff

/-- Any nonempty catalog prices every request list under the flexible
matcher. -/
theorem priceSessionsFlex_isSome {t : Trainer} (h : t.services ≠ []) :
    ∀ reqs : List SessionInput, (priceSessionsFlex t reqs).isSome = true := by
  intro reqs
  induction reqs with
  | nil => rfl
  | cons r rs ih =>
    simp only [priceSessionsFlex]
    cases hm : matchServiceFlex t r.type with
    | none => exact absurd ((matchServiceFlex_none_iff t r.type).mp hm) h
    | some svc =>
      cases hrec : priceSessionsFlex t rs with
      | none => rw [hrec] at ih; cases ih
      | some p =>
        obtain ⟨prices, total⟩ := p
        rfl

/-- C4 amended: the fallback to the first service happens only when the
flexible matching of the start.bat route (case-insensitive equality, or
substring containment in either direction) fails against every service;
then the first service is used, a trainer with a nonempty catalog never
yields the 400 branch for any request, and only a trainer with no
services at all makes the pricing loop fail. -/
theorem C4_flexible_fallback (t : Trainer) (name : String)
    (hnone : ∀ svc ∈ t.services, flexMatches svc.name name = false) :
    matchServiceFlex t name = t.services.head? ∧
    (matchServiceFlex t name = none ↔ t.services = []) ∧
    (t.services ≠ [] → ∀ reqs : List SessionInput,
      (priceSessionsFlex t reqs).isSome = true) ∧
    (t.services = [] → ∀ reqs : List SessionInput, reqs ≠ [] →
      priceSessionsFlex t reqs = none) := by
  refine ⟨?_, matchServiceFlex_none_iff t name, fun h => priceSessionsFlex_isSome h, ?_⟩
  · have hf : t.services.find? (fun s => flexMatches s.name name) = none :=
      List.find?_eq_none.mpr (fun s hs => by simp [hnone s hs])
    unfold matchServiceFlex
    rw [hf]
  · intro hnil reqs hreqs
    cases reqs with
    | nil => exact absurd rfl hreqs
    | cons r rs =>
      have hm : matchServiceFlex t r.type = none :=
        (matchServiceFlex_none_iff t r.type).mpr hnil
      simp only [priceSessionsFlex, hm]

/-- Witness for the amended C4 on a name no service matches even
flexibly. -/
theorem C4_flexible_fallback_witness :
    matchServiceFlex tFlex "zzz" = tFlex.services.head? ∧
    (matchServiceFlex tFlex "zzz" = none ↔ tFlex.services = []) ∧
    (tFlex.services ≠ [] → ∀ reqs : List SessionInput,
      (priceSessionsFlex tFlex reqs).isSome = true) ∧
    (tFlex.services = [] → ∀ reqs : List SessionInput, reqs ≠ [] →
      priceSessionsFlex tFlex reqs = none) :=
  C4_flexible_fallback tFlex "zzz" (by decide)

end Trainerproj
